import Mathlib

/-!
Shallow embedding of the LiveKit session manager (`src/lib/livekit.ts`,
class `LiveKitManager`) and of the connection-loss / toggle logic it
implements, together with proofs of the specification's claims about it.

The registry `Map<string, ParticipantData>` is modelled as an association
list with JavaScript `Map` semantics (`set` replaces in place or appends,
`delete` removes the entry, in-place mutation of a fetched value is a
keyed modification).  Transport objects (`Room`, participants, tracks,
publications) are modelled by explicit structures carrying exactly the
fields the manager reads.
-/

namespace LiveKitDemo

/-- `Track.Kind` from the livekit client: media kind of a track. -/
inductive Kind where
  | video
  | audio
deriving DecidableEq, Repr

/-- A transport track handle.  The manager reads `(track as any).enabled`
and `(track as any).muted`, which may be `undefined` in JS; both are
therefore modelled as `Option Bool` (`none` = `undefined`). -/
structure MediaTrack where
  kind : Kind
  enabled : Option Bool
  muted : Option Bool
deriving DecidableEq, Repr

/-- A track publication; `track` is `undefined` until the track is live. -/
structure Publication where
  track : Option MediaTrack
deriving DecidableEq, Repr

/-- The transport-side view of a participant (`LocalParticipant` /
`RemoteParticipant`): identity, device-enabled flags and publication maps. -/
structure TransportParticipant where
  identity : String
  isCameraEnabled : Bool
  isMicrophoneEnabled : Bool
  videoTrackPublications : List Publication
  audioTrackPublications : List Publication
deriving DecidableEq, Repr

/-- `ParticipantData` from the source (minus the raw participant handle,
whose readable fields live in `TransportParticipant`). -/
structure ParticipantData where
  isLocal : Bool
  isRoomCreator : Bool
  videoTrack : Option MediaTrack
  audioTrack : Option MediaTrack
  isMuted : Bool
  isCameraOn : Bool
deriving DecidableEq, Repr

/-- The transport `Room` object: its connection-state string, the local
participant and the remote roster. -/
structure RoomState where
  state : String
  localParticipant : TransportParticipant
  remoteParticipants : List TransportParticipant
deriving DecidableEq, Repr

/-- The manager's participant registry: `Map<string, ParticipantData>`. -/
abbrev Registry := List (String × ParticipantData)

/-- The mutable fields of `LiveKitManager` that the claims touch. -/
structure ManagerState where
  room : Option RoomState
  participants : Registry
  lastCameraState : Bool
  lastMicrophoneState : Bool
  restorationAttempts : Nat
  maxRestorationAttempts : Nat
deriving DecidableEq, Repr

/-- JS `Map.get`. -/
def mapGet : Registry → String → Option ParticipantData
  | [], _ => none
  | e :: rest, k => if e.1 = k then some e.2 else mapGet rest k

/-- JS `Map.set`: replace in place if the key exists, else append. -/
def mapSet : Registry → String → ParticipantData → Registry
  | [], k, v => [(k, v)]
  | e :: rest, k, v => if e.1 = k then (k, v) :: rest else e :: mapSet rest k v

/-- JS `Map.delete`: remove the entry with the given key. -/
def mapDelete : Registry → String → Registry
  | [], _ => []
  | e :: rest, k => if e.1 = k then rest else e :: mapDelete rest k

/-- In-place mutation of the value fetched for a key (`get` then assign
to its fields): apply `f` to the entry stored under `k`. -/
def mapModify (m : Registry) (k : String) (f : ParticipantData → ParticipantData) : Registry :=
  m.map (fun e => if e.1 = k then (e.1, f e.2) else e)

/-- `publications.find(pub => pub.track)?.track`: the first live track in a
publication list. -/
def findPubTrack (pubs : List Publication) : Option MediaTrack :=
  (pubs.find? (fun pb => pb.track.isSome)).bind (fun pb => pb.track)

/-- The entry built by `addParticipant` (lines 340-399).  Flags are seeded
from the device-enabled state (`!isMicrophoneEnabled`, `isCameraEnabled`);
for remote participants the flags are then overridden by track presence
(video found → camera on, else off; audio found → not muted, else muted),
so the remote flags equal track presence and the local flags stay at the
seeded values.  The track slots hold the first live publication track of
each kind, or nothing. -/
def mkParticipantData (p : TransportParticipant) (isLocal isRoomCreator : Bool) :
    ParticipantData :=
  let vt := findPubTrack p.videoTrackPublications
  let atk := findPubTrack p.audioTrackPublications
  { isLocal := isLocal
    isRoomCreator := isRoomCreator
    videoTrack := vt
    audioTrack := atk
    isMuted := if isLocal then !p.isMicrophoneEnabled else atk.isNone
    isCameraOn := if isLocal then p.isCameraEnabled else vt.isSome }

/-- `addParticipant` (lines 340-403): build the entry and `set` it. -/
def addParticipant (reg : Registry) (p : TransportParticipant)
    (isLocal isRoomCreator : Bool) : Registry :=
  mapSet reg p.identity (mkParticipantData p isLocal isRoomCreator)

/-- `removeParticipant` (lines 405-408). -/
def removeParticipant (reg : Registry) (identity : String) : Registry :=
  mapDelete reg identity

/-- The per-entry effect of `updateParticipantTrack` (lines 410-438):
attach the track to its kind slot, then derive the flag from the track
(`isCameraOn = !!track && enabled !== false`, `isMuted = !track || muted === true`). -/
def applyTrackToEntry (t : MediaTrack) (e : ParticipantData) : ParticipantData :=
  match t.kind with
  | Kind.video => { e with videoTrack := some t, isCameraOn := decide (t.enabled ≠ some false) }
  | Kind.audio => { e with audioTrack := some t, isMuted := decide (t.muted = some true) }

/-- `updateParticipantTrack` (lines 410-438).  The `Bool` records whether
the participants-changed callback fired. -/
def updateParticipantTrack (reg : Registry) (identity : String) (t : MediaTrack) :
    Registry × Bool :=
  match mapGet reg identity with
  | none => (reg, false)
  | some _ => (mapModify reg identity (applyTrackToEntry t), true)

/-- The per-entry effect of `removeParticipantTrack`. -/
def clearTrackSlot (kind : Kind) (e : ParticipantData) : ParticipantData :=
  match kind with
  | Kind.video => { e with videoTrack := none }
  | Kind.audio => { e with audioTrack := none }

/-- `removeParticipantTrack` (lines 440-450). -/
def removeParticipantTrack (reg : Registry) (identity : String) (kind : Kind) :
    Registry × Bool :=
  match mapGet reg identity with
  | none => (reg, false)
  | some _ => (mapModify reg identity (clearTrackSlot kind), true)

/-- The per-entry effect of `updateParticipantMuteStatus`. -/
def applyMuteToEntry (kind : Kind) (muted : Bool) (e : ParticipantData) : ParticipantData :=
  match kind with
  | Kind.audio => { e with isMuted := muted }
  | Kind.video => { e with isCameraOn := !muted }

/-- `updateParticipantMuteStatus` (lines 452-462). -/
def updateParticipantMuteStatus (reg : Registry) (identity : String) (kind : Kind)
    (muted : Bool) : Registry × Bool :=
  match mapGet reg identity with
  | none => (reg, false)
  | some _ => (mapModify reg identity (applyMuteToEntry kind muted), true)

/-- The `RoomEvent.Disconnected` handler's permanence test (line 279):
`reason && (reason.toString() === 'CLIENT_INITIATED' || reason.toString() === 'SERVER_SHUTDOWN')`. -/
def isPermanentReason (reason : Option String) : Bool :=
  match reason with
  | none => false
  | some s => s = "CLIENT_INITIATED" || s = "SERVER_SHUTDOWN"

/-- The `RoomEvent.Disconnected` handler (lines 273-289): on a permanent
reason, clear the local participant's video and audio track slots; on a
transient reason, leave everything as is (the connection callback fires
but no state is touched). -/
def onDisconnected (st : ManagerState) (reason : Option String) : ManagerState :=
  if isPermanentReason reason then
    match st.room with
    | none => st
    | some r =>
        let li := r.localParticipant.identity
        let reg1 := (removeParticipantTrack st.participants li Kind.video).1
        let reg2 := (removeParticipantTrack reg1 li Kind.audio).1
        { st with participants := reg2 }
  else st

/-- The `RoomEvent.Reconnecting` handler (lines 308-311): it only fires the
connection callback; no manager field changes. -/
def onReconnecting (st : ManagerState) : ManagerState :=
  st

/-- `room.localParticipant.setCameraEnabled(b)` on the transport. -/
def setLocalCameraEnabled (r : RoomState) (b : Bool) : RoomState :=
  { r with localParticipant := { r.localParticipant with isCameraEnabled := b } }

/-- `room.localParticipant.setMicrophoneEnabled(b)` on the transport. -/
def setLocalMicrophoneEnabled (r : RoomState) (b : Bool) : RoomState :=
  { r with localParticipant := { r.localParticipant with isMicrophoneEnabled := b } }

/-- `restoreCameraState` (lines 869-912).  If a room exists and the desired
camera flag is set, the attempt counter is incremented (line 887,
unconditionally), the local entry's `isCameraOn` is forced to `true`, and —
when the room is connected (`waitForEngineBeforePublish` throws otherwise)
and the transport reports the camera disabled — `setCameraEnabled(true)` is
issued.  `enableWorks` says whether that transport call takes effect; the
returned `Bool` records whether the call was issued at all. -/
def restoreCameraState (st : ManagerState) (enableWorks : Bool) : ManagerState × Bool :=
  match st.room with
  | none => (st, false)
  | some r =>
      if st.lastCameraState then
        let st1 := { st with restorationAttempts := st.restorationAttempts + 1 }
        let st2 :=
          match mapGet st1.participants r.localParticipant.identity with
          | some _ =>
              let reg := mapModify st1.participants r.localParticipant.identity
                (fun e => { e with isCameraOn := true })
              { st1 with participants := reg }
          | none => st1
        if r.state = "connected" then
          if r.localParticipant.isCameraEnabled then (st2, false)
          else if enableWorks then
            ({ st2 with room := some (setLocalCameraEnabled r true) }, true)
          else (st2, true)
        else (st2, false)
      else (st, false)

/-- Iterate `restoreCameraState` (triggered again and again by connection
events such as `RoomEvent.Connected`, quality changes, and state changes). -/
def restoreN (st : ManagerState) (enableWorks : Bool) : Nat → ManagerState
  | 0 => st
  | n + 1 => (restoreCameraState (restoreN st enableWorks n) enableWorks).1

/-- `checkAndRetryRestoration` (lines 942-965): retry `restoreCameraState`
only while the attempt counter is below the maximum; reset the counter when
a local video track is present.  The returned `Bool` records whether a
`setCameraEnabled` call was issued. -/
def checkAndRetryRestoration (st : ManagerState) (enableWorks : Bool) : ManagerState × Bool :=
  match st.room with
  | none => (st, false)
  | some r =>
      match mapGet st.participants r.localParticipant.identity with
      | none => (st, false)
      | some e =>
          if st.lastCameraState && e.videoTrack.isNone then
            if st.restorationAttempts < st.maxRestorationAttempts then
              restoreCameraState st enableWorks
            else (st, false)
          else if e.videoTrack.isSome then
            ({ st with restorationAttempts := 0 }, false)
          else (st, false)

/-- The per-entry effect of `refreshVideoTracksInternal` (lines 816-866) on
the local entry: re-attach the first live video/audio publication tracks;
a missing video track is cleared only when the transport says the camera is
off, and a missing audio track is never cleared. -/
def refreshLocalEntry (lp : TransportParticipant) (e : ParticipantData) : ParticipantData :=
  let e1 :=
    match findPubTrack lp.videoTrackPublications with
    | some t => { e with videoTrack := some t }
    | none => if lp.isCameraEnabled then e else { e with videoTrack := none }
  match findPubTrack lp.audioTrackPublications with
  | some t => { e1 with audioTrack := some t }
  | none => e1

/-- `refreshVideoTracksInternal` (lines 816-866). -/
def refreshVideoTracksInternal (st : ManagerState) : ManagerState :=
  match st.room with
  | none => st
  | some r =>
      let reg := mapModify st.participants r.localParticipant.identity
        (refreshLocalEntry r.localParticipant)
      { st with participants := reg }

/-- `room.getParticipantByIdentity`. -/
def getParticipantByIdentity (r : RoomState) (id : String) : Option TransportParticipant :=
  if r.localParticipant.identity = id then some r.localParticipant
  else r.remoteParticipants.find? (fun p => p.identity = id)

/-- The per-entry effect of `updateParticipantFromLiveKit` (lines 699-730):
all four media fields are re-derived from the transport participant. -/
def refreshRemoteEntry (lkp : TransportParticipant) (e : ParticipantData) : ParticipantData :=
  { e with
      videoTrack := findPubTrack lkp.videoTrackPublications
      audioTrack := findPubTrack lkp.audioTrackPublications
      isCameraOn := lkp.isCameraEnabled
      isMuted := !lkp.isMicrophoneEnabled }

/-- `updateParticipantFromLiveKit` (lines 699-730). -/
def updateParticipantFromLiveKit (st : ManagerState) (id : String) : ManagerState :=
  match st.room with
  | none => st
  | some r =>
      match getParticipantByIdentity r id with
      | none => st
      | some lkp =>
          match mapGet st.participants id with
          | none => st
          | some _ =>
              let reg := mapModify st.participants id (refreshRemoteEntry lkp)
              { st with participants := reg }

/-- The identities of the non-local registry entries, in registry order
(the loop of `refreshAllParticipantTracks`, lines 690-695). -/
def remoteIdentities (reg : Registry) : List String :=
  (reg.filter (fun e => !e.2.isLocal)).map Prod.fst

/-- `refreshAllParticipantTracks` (lines 681-696): refresh the local entry,
then re-derive every remote entry from the transport. -/
def refreshAllParticipantTracks (st : ManagerState) : ManagerState :=
  match st.room with
  | none => st
  | some _ =>
      let st1 := refreshVideoTracksInternal st
      (remoteIdentities st1.participants).foldl updateParticipantFromLiveKit st1

/-- The `RoomEvent.ConnectionStateChanged` handler (lines 313-337) together
with the continuations it schedules in its `connected` branch: for any
non-`connected` state only the connection callback fires. -/
def onConnectionStateChanged (st : ManagerState) (state : String) (enableWorks : Bool) :
    ManagerState :=
  if state = "connected" then
    let st1 := refreshVideoTracksInternal st
    if st1.lastCameraState then (restoreCameraState st1 enableWorks).1 else st1
  else st

/-- The synchronous part of `toggleCamera` (lines 542-563), up to the
`await setCameraEnabled` suspension point: the not-initialized and
not-connected guards throw, then the local entry's `isCameraOn` and the
desired flag `lastCameraState` are both set to `!isCameraEnabled`
optimistically (only when the local entry exists). -/
def toggleCameraSyncStart (st : ManagerState) : ManagerState × Option String :=
  match st.room with
  | none => (st, some "Room not initialized")
  | some r =>
      if r.state = "connected" then
        let isEnabled := r.localParticipant.isCameraEnabled
        match mapGet st.participants r.localParticipant.identity with
        | none => (st, none)
        | some _ =>
            let reg := mapModify st.participants r.localParticipant.identity
              (fun e => { e with isCameraOn := !isEnabled })
            ({ st with participants := reg, lastCameraState := !isEnabled }, none)
      else (st, some "Room not connected")

/-- The resolution of `toggleCamera`'s transport call (lines 566-587): on
success the transport's camera-enabled flag flips; on failure the catch
block resets the local entry's `isCameraOn` from the transport's (unchanged)
`isCameraEnabled` and rethrows.  The desired flag is not touched here. -/
def toggleCameraResolve (st : ManagerState) (callFails : Bool) : ManagerState × Option String :=
  match st.room with
  | none => (st, none)
  | some r =>
      let isEnabled := r.localParticipant.isCameraEnabled
      if callFails then
        match mapGet st.participants r.localParticipant.identity with
        | none => (st, some "Failed to toggle camera")
        | some _ =>
            let reg := mapModify st.participants r.localParticipant.identity
              (fun e => { e with isCameraOn := isEnabled })
            ({ st with participants := reg }, some "Failed to toggle camera")
      else ({ st with room := some (setLocalCameraEnabled r (!isEnabled)) }, none)

/-- `toggleCamera` (lines 542-588) as a whole: guards and optimistic update,
then the transport call resolving with `callFails`. -/
def toggleCamera (st : ManagerState) (callFails : Bool) : ManagerState × Option String :=
  match toggleCameraSyncStart st with
  | (s, some e) => (s, some e)
  | (s, none) => toggleCameraResolve s callFails

/-- The synchronous part of `toggleMicrophone` (lines 501-522): guards,
then `isMuted` is set to `!isEnabled` and `lastMicrophoneState` to
`!isEnabled` (only when the local entry exists). -/
def toggleMicrophoneSyncStart (st : ManagerState) : ManagerState × Option String :=
  match st.room with
  | none => (st, some "Room not initialized")
  | some r =>
      if r.state = "connected" then
        let isEnabled := r.localParticipant.isMicrophoneEnabled
        match mapGet st.participants r.localParticipant.identity with
        | none => (st, none)
        | some _ =>
            let reg := mapModify st.participants r.localParticipant.identity
              (fun e => { e with isMuted := !isEnabled })
            ({ st with participants := reg, lastMicrophoneState := !isEnabled }, none)
      else (st, some "Room not connected")

/-- The resolution of `toggleMicrophone`'s transport call (lines 525-538):
on success the transport's microphone-enabled flag flips; on failure the
catch block sets the local entry's `isMuted` from the transport's
`isMicrophoneEnabled` and rethrows.  The desired flag is not touched. -/
def toggleMicrophoneResolve (st : ManagerState) (callFails : Bool) :
    ManagerState × Option String :=
  match st.room with
  | none => (st, none)
  | some r =>
      let isEnabled := r.localParticipant.isMicrophoneEnabled
      if callFails then
        match mapGet st.participants r.localParticipant.identity with
        | none => (st, some "Failed to toggle microphone")
        | some _ =>
            let reg := mapModify st.participants r.localParticipant.identity
              (fun e => { e with isMuted := isEnabled })
            ({ st with participants := reg }, some "Failed to toggle microphone")
      else ({ st with room := some (setLocalMicrophoneEnabled r (!isEnabled)) }, none)

/-- `toggleMicrophone` (lines 501-539) as a whole. -/
def toggleMicrophone (st : ManagerState) (callFails : Bool) : ManagerState × Option String :=
  match toggleMicrophoneSyncStart st with
  | (s, some e) => (s, some e)
  | (s, none) => toggleMicrophoneResolve s callFails

/-- A participant-joined or participant-left event as delivered to the
registry (`ParticipantConnected` → `addParticipant`, the local join in
`connect` → `addParticipant(local, true, ...)`, `ParticipantDisconnected` →
`removeParticipant`). -/
inductive RoomOccupancyEvent where
  | joined (p : TransportParticipant) (isLocal : Bool) (isRoomCreator : Bool)
  | left (identity : String)
deriving DecidableEq, Repr

/-- Apply one occupancy event to the registry. -/
def applyOccupancyEvent (reg : Registry) (ev : RoomOccupancyEvent) : Registry :=
  match ev with
  | RoomOccupancyEvent.joined p il irc => addParticipant reg p il irc
  | RoomOccupancyEvent.left id => removeParticipant reg id

/-- Apply a sequence of occupancy events to the initially empty registry. -/
def applyOccupancyEvents (evs : List RoomOccupancyEvent) : Registry :=
  evs.foldl applyOccupancyEvent []

/-- The effect of one occupancy event on the set of currently joined
identities (kept as an ordered duplicate-free list). -/
def occStep (ids : List String) (ev : RoomOccupancyEvent) : List String :=
  match ev with
  | RoomOccupancyEvent.joined p _ _ => if p.identity ∈ ids then ids else ids ++ [p.identity]
  | RoomOccupancyEvent.left id => ids.erase id

/-- The currently joined identities after a sequence of occupancy events. -/
def currentIdentities (evs : List RoomOccupancyEvent) : List String :=
  evs.foldl occStep []

/-- An occupancy event is consistent with local identity `L` when its
`isLocal` argument is true exactly for `L` — the manager passes `true` only
for `room.localParticipant` and `false` only for remote participants. -/
def localConsistent (L : String) : RoomOccupancyEvent → Bool
  | RoomOccupancyEvent.joined p il _ => il = decide (p.identity = L)
  | RoomOccupancyEvent.left _ => true

/-- A keyed pointwise map over the registry: every entry's value is
rewritten by a function of its own key.  `mapModify` and the reconcile
pass are instances of this shape. -/
def kmap (F : String → ParticipantData → ParticipantData) (reg : Registry) : Registry :=
  reg.map (fun e => (e.1, F e.1 e.2))

/-- The per-entry function applied to key `k` by
`updateParticipantFromLiveKit` (identity when the transport no longer
knows the identity). -/
def lkRefreshFun (r : RoomState) (k : String) : ParticipantData → ParticipantData :=
  match getParticipantByIdentity r k with
  | some lkp => refreshRemoteEntry lkp
  | none => fun e => e

/-- The local-refresh phase of a reconcile pass as seen by the entry under
key `q`: `refreshVideoTracksInternal` touches only the local identity. -/
def localPass (r : RoomState) (q : String) (e : ParticipantData) : ParticipantData :=
  if q = r.localParticipant.identity then refreshLocalEntry r.localParticipant e else e

/-- The per-entry function of one whole `refreshAllParticipantTracks`
pass, given the room `r` and the non-local key list `ks` the pass loops
over: the local refresh at the local identity, then the transport
re-derivation at the keys in `ks`. -/
def reconcileEntryFun (r : RoomState) (ks : List String) (q : String)
    (e : ParticipantData) : ParticipantData :=
  if q ∈ ks then lkRefreshFun r q (localPass r q e) else localPass r q e

/-- A transport participant named alice with no live publications. -/
def lpAlice (cam mic : Bool) : TransportParticipant :=
  { identity := "alice"
    isCameraEnabled := cam
    isMicrophoneEnabled := mic
    videoTrackPublications := []
    audioTrackPublications := [] }

/-- A registry entry for alice as the local room creator with no tracks,
camera off and muted. -/
def entryAlice : ParticipantData :=
  { isLocal := true
    isRoomCreator := true
    videoTrack := none
    audioTrack := none
    isMuted := true
    isCameraOn := false }

/-- A connected single-participant manager state over alice. -/
def baseState (cam mic lastCam lastMic : Bool) (att : Nat) : ManagerState :=
  { room := some { state := "connected", localParticipant := lpAlice cam mic, remoteParticipants := [] }
    participants := [("alice", entryAlice)]
    lastCameraState := lastCam
    lastMicrophoneState := lastMic
    restorationAttempts := att
    maxRestorationAttempts := 5 }

/-- A manager state with no room at all (before `connect` / after teardown). -/
def stNoRoom : ManagerState :=
  { room := none
    participants := [("alice", entryAlice)]
    lastCameraState := true
    lastMicrophoneState := false
    restorationAttempts := 0
    maxRestorationAttempts := 5 }

/-- Failing restoration scenario: camera desired on, transport camera off,
no video publication ever appears. -/
def stRestore : ManagerState := baseState false false true false 0

/-- Connected state for the toggle claims: camera and microphone off,
desired flags off. -/
def stToggle : ManagerState := baseState false false false false 0

/-- A second connected state of the same shape for the double-call claim. -/
def stDouble : ManagerState := baseState false true false true 0

/-- A video track whose `enabled` field is `undefined` (treated as live by
`updateParticipantTrack`). -/
def tVideo : MediaTrack := { kind := Kind.video, enabled := none, muted := none }

/-- A registry holding only the local alice entry. -/
def regAlice : Registry := [("alice", entryAlice)]

/-- A remote transport participant named bob with no live publications. -/
def lpBob : TransportParticipant :=
  { identity := "bob"
    isCameraEnabled := false
    isMicrophoneEnabled := false
    videoTrackPublications := []
    audioTrackPublications := [] }

/-- A demo occupancy-event sequence: alice joins locally, bob joins twice
(duplicate join), bob leaves. -/
def evsDemo : List RoomOccupancyEvent :=
  [RoomOccupancyEvent.joined (lpAlice true true) true true,
   RoomOccupancyEvent.joined lpBob false false,
   RoomOccupancyEvent.joined lpBob false false,
   RoomOccupancyEvent.left "bob"]

theorem mapGet_mapModify_self (reg : Registry) (k : String)
    (f : ParticipantData → ParticipantData) :
    mapGet (mapModify reg k f) k = (mapGet reg k).map f := by
  induction reg with
  | nil => rfl
  | cons e rest ih =>
      by_cases h : e.1 = k
      · simp [mapModify, mapGet, h]
      · simpa [mapModify, mapGet, h] using ih

theorem mapGet_mapModify_ne (reg : Registry) (k k' : String)
    (f : ParticipantData → ParticipantData) (h : k' ≠ k) :
    mapGet (mapModify reg k f) k' = mapGet reg k' := by
  induction reg with
  | nil => rfl
  | cons e rest ih =>
      by_cases he' : e.1 = k'
      · have hek : ¬ e.1 = k := fun hc => h (he'.symm.trans hc)
        simp [mapModify, mapGet, he', hek, h]
      · by_cases he : e.1 = k
        · simpa [mapModify, mapGet, he, he', Ne.symm h] using ih
        · simpa [mapModify, mapGet, he, he'] using ih

theorem mapModify_of_get_none (reg : Registry) (k : String)
    (f : ParticipantData → ParticipantData) (h : mapGet reg k = none) :
    mapModify reg k f = reg := by
  induction reg with
  | nil => rfl
  | cons e rest ih =>
      by_cases he : e.1 = k
      · simp [mapGet, he] at h
      · simp [mapGet, he] at h
        simp [mapModify, he] at ih ⊢
        exact ih h

theorem mapGet_mapSet_self (reg : Registry) (k : String) (v : ParticipantData) :
    mapGet (mapSet reg k v) k = some v := by
  induction reg with
  | nil => simp [mapSet, mapGet]
  | cons e rest ih =>
      by_cases he : e.1 = k
      · simp [mapSet, mapGet, he]
      · simpa [mapSet, mapGet, he] using ih

/-- Claim C10: on an identity absent from the registry,
`updateParticipantTrack`, `removeParticipantTrack` and
`updateParticipantMuteStatus` neither change the registry nor fire the
participants-changed callback, so a racing track or mute event cannot
create a partial entry. -/
theorem absent_identity_track_events_noop (reg : Registry) (id : String)
    (h : mapGet reg id = none) (t : MediaTrack) (kind : Kind) (muted : Bool) :
    updateParticipantTrack reg id t = (reg, false) ∧
    removeParticipantTrack reg id kind = (reg, false) ∧
    updateParticipantMuteStatus reg id kind muted = (reg, false) := by
  refine ⟨?_, ?_, ?_⟩ <;>
    simp [updateParticipantTrack, removeParticipantTrack, updateParticipantMuteStatus, h]

/-- Witness for C10 at the empty registry and identity bob. -/
theorem absent_identity_track_events_noop_w :
    updateParticipantTrack [] "bob" tVideo = ([], false) ∧
    removeParticipantTrack [] "bob" Kind.audio = ([], false) ∧
    updateParticipantMuteStatus [] "bob" Kind.audio true = ([], false) :=
  absent_identity_track_events_noop [] "bob" rfl tVideo Kind.audio true

/-- Claim C5: when there is no room or the room state is not
`connected`, `toggleCamera` and `toggleMicrophone` fail and leave the
whole manager state — desired flags and every registry entry — unchanged. -/
theorem toggle_not_connected_fails_unchanged (st : ManagerState) (b : Bool)
    (h : ∀ r, st.room = some r → r.state ≠ "connected") :
    (toggleCamera st b).1 = st ∧ (toggleCamera st b).2.isSome = true ∧
    (toggleMicrophone st b).1 = st ∧ (toggleMicrophone st b).2.isSome = true := by
  cases hr : st.room with
  | none =>
      simp [toggleCamera, toggleCameraSyncStart, toggleMicrophone,
        toggleMicrophoneSyncStart, hr]
  | some r =>
      have hs : ¬ r.state = "connected" := h r hr
      simp [toggleCamera, toggleCameraSyncStart, toggleMicrophone,
        toggleMicrophoneSyncStart, hr, hs]

/-- Witness for C5 at a state with no room. -/
theorem toggle_not_connected_fails_unchanged_w :
    (toggleCamera stNoRoom true).1 = stNoRoom ∧
    (toggleCamera stNoRoom true).2.isSome = true ∧
    (toggleMicrophone stNoRoom true).1 = stNoRoom ∧
    (toggleMicrophone stNoRoom true).2.isSome = true :=
  toggle_not_connected_fails_unchanged stNoRoom true (fun _ hr => Option.noConfusion hr)

/-- Claim C4: connection-loss events — `Disconnected` (any reason),
`Reconnecting`, and `ConnectionStateChanged` to a non-connected state —
leave the desired device flags `lastCameraState` and
`lastMicrophoneState` untouched. -/
theorem connection_loss_preserves_desired_state (st : ManagerState)
    (reason : Option String) (state : String) (w : Bool)
    (h : state ≠ "connected") :
    (onDisconnected st reason).lastCameraState = st.lastCameraState ∧
    (onDisconnected st reason).lastMicrophoneState = st.lastMicrophoneState ∧
    onReconnecting st = st ∧
    (onConnectionStateChanged st state w).lastCameraState = st.lastCameraState ∧
    (onConnectionStateChanged st state w).lastMicrophoneState = st.lastMicrophoneState := by
  refine ⟨?_, ?_, rfl, ?_, ?_⟩
  · unfold onDisconnected
    split
    · cases st.room <;> rfl
    · rfl
  · unfold onDisconnected
    split
    · cases st.room <;> rfl
    · rfl
  · simp [onConnectionStateChanged, h]
  · simp [onConnectionStateChanged, h]

/-- Witness for C4 at a concrete connected state, a permanent reason and
the `disconnected` connection state. -/
theorem connection_loss_preserves_desired_state_w :
    (onDisconnected stRestore (some "CLIENT_INITIATED")).lastCameraState = stRestore.lastCameraState ∧
    (onDisconnected stRestore (some "CLIENT_INITIATED")).lastMicrophoneState = stRestore.lastMicrophoneState ∧
    onReconnecting stRestore = stRestore ∧
    (onConnectionStateChanged stRestore "disconnected" false).lastCameraState = stRestore.lastCameraState ∧
    (onConnectionStateChanged stRestore "disconnected" false).lastMicrophoneState = stRestore.lastMicrophoneState :=
  connection_loss_preserves_desired_state stRestore (some "CLIENT_INITIATED")
    "disconnected" false (by decide)

theorem removeParticipantTrack_fst_get_self (reg : Registry) (id : String) (kind : Kind) :
    mapGet (removeParticipantTrack reg id kind).1 id = (mapGet reg id).map (clearTrackSlot kind) := by
  unfold removeParticipantTrack
  cases h : mapGet reg id with
  | none => simp [h]
  | some e => simp [mapGet_mapModify_self, h]

theorem removeParticipantTrack_fst_get_ne (reg : Registry) (id k : String) (kind : Kind)
    (h : k ≠ id) :
    mapGet (removeParticipantTrack reg id kind).1 k = mapGet reg k := by
  unfold removeParticipantTrack
  cases hg : mapGet reg id with
  | none => simp
  | some e => simp [mapGet_mapModify_ne _ _ _ _ h]

/-- Claim C1: the `Disconnected` handler on a session that has a room
clears the local participant's video and audio track slots when the
reason is permanent (`CLIENT_INITIATED` / `SERVER_SHUTDOWN`), leaving
every other entry untouched, and leaves the whole manager state unchanged
when the reason is transient. -/
theorem disconnected_reason_classification (st : ManagerState) (r : RoomState)
    (reason : Option String) (hr : st.room = some r) :
    (isPermanentReason reason = true →
      mapGet (onDisconnected st reason).participants r.localParticipant.identity =
        (mapGet st.participants r.localParticipant.identity).map
          (fun e => { e with videoTrack := none, audioTrack := none }) ∧
      ∀ k, k ≠ r.localParticipant.identity →
        mapGet (onDisconnected st reason).participants k = mapGet st.participants k) ∧
    (isPermanentReason reason = false → onDisconnected st reason = st) := by
  constructor
  · intro hp
    constructor
    · simp only [onDisconnected, hp, if_true, hr]
      rw [removeParticipantTrack_fst_get_self, removeParticipantTrack_fst_get_self,
        Option.map_map]
      rcases mapGet st.participants r.localParticipant.identity with _ | e
      · rfl
      · rfl
    · intro k hk
      simp only [onDisconnected, hp, if_true, hr]
      rw [removeParticipantTrack_fst_get_ne _ _ _ _ hk, removeParticipantTrack_fst_get_ne _ _ _ _ hk]
  · intro hp
    simp [onDisconnected, hp]

/-- Witness for C1 at a concrete connected state: instantiated once with
the permanent reason `CLIENT_INITIATED` and once with a transient reason. -/
theorem disconnected_reason_classification_w :
    ((isPermanentReason (some "CLIENT_INITIATED") = true →
      mapGet (onDisconnected stRestore (some "CLIENT_INITIATED")).participants
          (lpAlice false false).identity =
        (mapGet stRestore.participants (lpAlice false false).identity).map
          (fun e => { e with videoTrack := none, audioTrack := none }) ∧
      ∀ k, k ≠ (lpAlice false false).identity →
        mapGet (onDisconnected stRestore (some "CLIENT_INITIATED")).participants k =
          mapGet stRestore.participants k) ∧
    (isPermanentReason (some "CLIENT_INITIATED") = false →
      onDisconnected stRestore (some "CLIENT_INITIATED") = stRestore)) ∧
    isPermanentReason (some "CLIENT_INITIATED") = true ∧
    isPermanentReason none = false :=
  ⟨disconnected_reason_classification stRestore
      { state := "connected", localParticipant := lpAlice false false, remoteParticipants := [] }
      (some "CLIENT_INITIATED") rfl,
   by decide, by decide⟩

/-- Claim C3 (code bug): in the failing-restoration scenario — desired
camera on, transport camera off, no video track ever appearing — five
deliveries of `restoreCameraState` (each `RoomEvent.Connected` schedules
two) drive the attempt counter to the configured maximum of 5, yet the
sixth delivery still issues a `setCameraEnabled` call and pushes the
counter to 6, past the maximum: `restoreCameraState` never consults
`maxRestorationAttempts`, and the only bounded path
(`checkAndRetryRestoration`, reached via `attemptCameraRestoration`) has
no callers. -/
theorem restoration_attempts_exceed_maximum :
    stRestore.maxRestorationAttempts = 5 ∧
    (restoreN stRestore false 5).restorationAttempts = 5 ∧
    (restoreCameraState (restoreN stRestore false 5) false).2 = true ∧
    (restoreCameraState (restoreN stRestore false 5) false).1.restorationAttempts = 6 := by
  refine ⟨rfl, ?_, ?_, ?_⟩ <;> decide

theorem toggleCameraSyncStart_eq (st : ManagerState) (r : RoomState)
    (hr : st.room = some r) (hc : r.state = "connected")
    (hp : (mapGet st.participants r.localParticipant.identity).isSome = true) :
    toggleCameraSyncStart st =
      ({ st with
          participants := mapModify st.participants r.localParticipant.identity
            (fun x => { x with isCameraOn := !r.localParticipant.isCameraEnabled })
          lastCameraState := !r.localParticipant.isCameraEnabled }, none) := by
  unfold toggleCameraSyncStart
  rw [hr]
  cases hg : mapGet st.participants r.localParticipant.identity with
  | none => rw [hg] at hp; exact absurd hp (by simp)
  | some e => simp [hc, hg]

theorem toggleMicrophoneSyncStart_eq (st : ManagerState) (r : RoomState)
    (hr : st.room = some r) (hc : r.state = "connected")
    (hp : (mapGet st.participants r.localParticipant.identity).isSome = true) :
    toggleMicrophoneSyncStart st =
      ({ st with
          participants := mapModify st.participants r.localParticipant.identity
            (fun x => { x with isMuted := !r.localParticipant.isMicrophoneEnabled })
          lastMicrophoneState := !r.localParticipant.isMicrophoneEnabled }, none) := by
  unfold toggleMicrophoneSyncStart
  rw [hr]
  cases hg : mapGet st.participants r.localParticipant.identity with
  | none => rw [hg] at hp; exact absurd hp (by simp)
  | some e => simp [hc, hg]

/-- Counterexample to claim C6: at a connected state with camera and
microphone off and both desired flags false, a failing toggle propagates
the error but leaves `lastCameraState` / `lastMicrophoneState` at their
optimistic values `true` — the desired-state flags are not rolled back to
their pre-call values `false`. -/
theorem toggle_failure_keeps_desired_flag_cex :
    stToggle.lastCameraState = false ∧
    (toggleCamera stToggle true).2.isSome = true ∧
    (toggleCamera stToggle true).1.lastCameraState = true ∧
    stToggle.lastMicrophoneState = false ∧
    (toggleMicrophone stToggle true).2.isSome = true ∧
    (toggleMicrophone stToggle true).1.lastMicrophoneState = true := by
  refine ⟨rfl, ?_, ?_, rfl, ?_, ?_⟩ <;> decide

/-- Claim C6 (amended): on a connected session with a local entry, the
toggles set the local entry flag and the desired-state flag before the
transport call resolves; if the call fails, the error is propagated and
only the local entry flag is reset, namely from the transport's enabled
flag (`isCameraOn := isCameraEnabled`, `isMuted := isMicrophoneEnabled`),
while the desired-state flag keeps its optimistic value. -/
theorem toggle_failure_reverts_entry_flag_only (st : ManagerState) (r : RoomState)
    (e : ParticipantData) (hr : st.room = some r) (hc : r.state = "connected")
    (hp : mapGet st.participants r.localParticipant.identity = some e) :
    (toggleCameraSyncStart st).1.lastCameraState = !r.localParticipant.isCameraEnabled ∧
    mapGet (toggleCameraSyncStart st).1.participants r.localParticipant.identity =
      some { e with isCameraOn := !r.localParticipant.isCameraEnabled } ∧
    (toggleCamera st true).2.isSome = true ∧
    (toggleCamera st true).1.lastCameraState = !r.localParticipant.isCameraEnabled ∧
    mapGet (toggleCamera st true).1.participants r.localParticipant.identity =
      some { e with isCameraOn := r.localParticipant.isCameraEnabled } ∧
    (toggleCamera st true).1.room = st.room ∧
    (toggleMicrophoneSyncStart st).1.lastMicrophoneState =
      !r.localParticipant.isMicrophoneEnabled ∧
    mapGet (toggleMicrophoneSyncStart st).1.participants r.localParticipant.identity =
      some { e with isMuted := !r.localParticipant.isMicrophoneEnabled } ∧
    (toggleMicrophone st true).2.isSome = true ∧
    (toggleMicrophone st true).1.lastMicrophoneState =
      !r.localParticipant.isMicrophoneEnabled ∧
    mapGet (toggleMicrophone st true).1.participants r.localParticipant.identity =
      some { e with isMuted := r.localParticipant.isMicrophoneEnabled } := by
  have hsyncC : toggleCameraSyncStart st =
      ({ st with
          participants := mapModify st.participants r.localParticipant.identity
            (fun x => { x with isCameraOn := !r.localParticipant.isCameraEnabled })
          lastCameraState := !r.localParticipant.isCameraEnabled }, none) :=
    toggleCameraSyncStart_eq st r hr hc (by rw [hp]; rfl)
  have hsyncM : toggleMicrophoneSyncStart st =
      ({ st with
          participants := mapModify st.participants r.localParticipant.identity
            (fun x => { x with isMuted := !r.localParticipant.isMicrophoneEnabled })
          lastMicrophoneState := !r.localParticipant.isMicrophoneEnabled }, none) :=
    toggleMicrophoneSyncStart_eq st r hr hc (by rw [hp]; rfl)
  have hgetC : mapGet (mapModify st.participants r.localParticipant.identity
        (fun x => { x with isCameraOn := !r.localParticipant.isCameraEnabled }))
        r.localParticipant.identity =
      some { e with isCameraOn := !r.localParticipant.isCameraEnabled } := by
    rw [mapGet_mapModify_self, hp]; rfl
  have hgetM : mapGet (mapModify st.participants r.localParticipant.identity
        (fun x => { x with isMuted := !r.localParticipant.isMicrophoneEnabled }))
        r.localParticipant.identity =
      some { e with isMuted := !r.localParticipant.isMicrophoneEnabled } := by
    rw [mapGet_mapModify_self, hp]; rfl
  have hcam : toggleCamera st true =
      ({ st with
          participants := mapModify
            (mapModify st.participants r.localParticipant.identity
              (fun x => { x with isCameraOn := !r.localParticipant.isCameraEnabled }))
            r.localParticipant.identity
            (fun x => { x with isCameraOn := r.localParticipant.isCameraEnabled })
          lastCameraState := !r.localParticipant.isCameraEnabled },
        some "Failed to toggle camera") := by
    rw [toggleCamera, hsyncC]
    unfold toggleCameraResolve
    simp [hr, hgetC]
  have hmic : toggleMicrophone st true =
      ({ st with
          participants := mapModify
            (mapModify st.participants r.localParticipant.identity
              (fun x => { x with isMuted := !r.localParticipant.isMicrophoneEnabled }))
            r.localParticipant.identity
            (fun x => { x with isMuted := r.localParticipant.isMicrophoneEnabled })
          lastMicrophoneState := !r.localParticipant.isMicrophoneEnabled },
        some "Failed to toggle microphone") := by
    rw [toggleMicrophone, hsyncM]
    unfold toggleMicrophoneResolve
    simp [hr, hgetM]
  refine ⟨?_, ?_, ?_, ?_, ?_, ?_, ?_, ?_, ?_, ?_, ?_⟩
  · rw [hsyncC]
  · rw [hsyncC]; exact hgetC
  · rw [hcam]; rfl
  · rw [hcam]
  · rw [hcam]
    simp only [mapGet_mapModify_self, hgetC]
    rfl
  · rw [hcam]
  · rw [hsyncM]
  · rw [hsyncM]; exact hgetM
  · rw [hmic]; rfl
  · rw [hmic]
  · rw [hmic]
    simp only [mapGet_mapModify_self, hgetM]
    rfl

/-- Witness for the amended C6 at a concrete connected state. -/
theorem toggle_failure_reverts_entry_flag_only_w :
    (toggleCamera stToggle true).2.isSome = true ∧
    (toggleCamera stToggle true).1.lastCameraState =
      !(lpAlice false false).isCameraEnabled ∧
    mapGet (toggleCamera stToggle true).1.participants (lpAlice false false).identity =
      some { entryAlice with isCameraOn := (lpAlice false false).isCameraEnabled } ∧
    (toggleMicrophone stToggle true).2.isSome = true := by
  have h := toggle_failure_reverts_entry_flag_only stToggle
    { state := "connected", localParticipant := lpAlice false false, remoteParticipants := [] }
    entryAlice rfl rfl (by decide)
  exact ⟨h.2.2.1, h.2.2.2.1, h.2.2.2.2.1, h.2.2.2.2.2.2.2.2.1⟩

/-- Counterexample to claim C7: `updateParticipantTrack` drives the
boolean flag from track presence even for the local participant — alice's
entry is local with `isCameraOn = false`, yet an arriving video track
flips it to `true`. -/
theorem local_flag_follows_track_presence_cex :
    entryAlice.isLocal = true ∧
    entryAlice.isCameraOn = false ∧
    (mapGet (updateParticipantTrack regAlice "alice" tVideo).1 "alice").map
      (fun e => e.isCameraOn) = some true := by
  refine ⟨rfl, rfl, ?_⟩
  decide

/-- Claim C7 (amended): on a track-subscribed/published event,
`updateParticipantTrack` derives the entry's flag from the track for local
and remote entries alike (`isCameraOn` from `enabled !== false`, `isMuted`
from `muted === true`); the local-participant exception holds only at
participant-add time, where `addParticipant` takes the local entry's flags
from the device-enabled state while remote flags follow track presence. -/
theorem track_event_flag_derivation (reg : Registry) (id : String) (t : MediaTrack)
    (e : ParticipantData) (hp : mapGet reg id = some e) (p : TransportParticipant)
    (irc : Bool) :
    (t.kind = Kind.video →
      mapGet (updateParticipantTrack reg id t).1 id =
        some { e with videoTrack := some t,
                      isCameraOn := decide (t.enabled ≠ some false) }) ∧
    (t.kind = Kind.audio →
      mapGet (updateParticipantTrack reg id t).1 id =
        some { e with audioTrack := some t,
                      isMuted := decide (t.muted = some true) }) ∧
    (mapGet (addParticipant reg p true irc) p.identity =
      some (mkParticipantData p true irc) ∧
      (mkParticipantData p true irc).isCameraOn = p.isCameraEnabled ∧
      (mkParticipantData p true irc).isMuted = !p.isMicrophoneEnabled) ∧
    ((mkParticipantData p false irc).isCameraOn =
        (findPubTrack p.videoTrackPublications).isSome ∧
      (mkParticipantData p false irc).isMuted =
        (findPubTrack p.audioTrackPublications).isNone) := by
  refine ⟨?_, ?_, ⟨?_, rfl, rfl⟩, rfl, rfl⟩
  · intro hk
    unfold updateParticipantTrack
    rw [hp]
    simp only [mapGet_mapModify_self, hp, Option.map]
    unfold applyTrackToEntry
    rw [hk]
  · intro hk
    unfold updateParticipantTrack
    rw [hp]
    simp only [mapGet_mapModify_self, hp, Option.map]
    unfold applyTrackToEntry
    rw [hk]
  · exact mapGet_mapSet_self reg p.identity (mkParticipantData p true irc)

/-- Witness for the amended C7 at alice's local entry and a video track. -/
theorem track_event_flag_derivation_w :
    mapGet (updateParticipantTrack regAlice "alice" tVideo).1 "alice" =
      some { entryAlice with videoTrack := some tVideo, isCameraOn := true } ∧
    (mkParticipantData (lpAlice true false) true true).isCameraOn = true := by
  have h := track_event_flag_derivation regAlice "alice" tVideo entryAlice
    (by decide) (lpAlice true false) true
  refine ⟨?_, h.2.2.1.2.1⟩
  have hv := h.1 rfl
  rw [hv]
  rfl

/-- Counterexample to claim C9: a second `toggleCamera` arriving while the
first is still pending does not fail with any error — the manager has no
in-progress guard — and it proceeds past the guards exactly like the
first call. -/
theorem toggle_double_call_no_error_cex :
    (toggleCameraSyncStart stDouble).2 = none ∧
    (toggleCameraSyncStart (toggleCameraSyncStart stDouble).1).2 = none ∧
    (toggleCameraSyncStart (toggleCameraSyncStart stDouble).1).1.lastCameraState = true := by
  refine ⟨?_, ?_, ?_⟩ <;> decide

/-- Claim C9 (amended): two un-awaited `toggleCamera` calls in immediate
succession both pass the guards — the second does not fail (there is no
`OperationInProgress` error in the manager; the UI layer merely ignores a
second click) — yet the desired-camera flag still ends at the pre-call
transport value negated exactly once, because both synchronous prefixes
read `isCameraEnabled` from the transport, which the pending first toggle
has not yet changed, and the asynchronous resolutions never write the
desired flag. -/
theorem toggle_double_call_negates_once (st : ManagerState) (r : RoomState)
    (e : ParticipantData) (hr : st.room = some r) (hc : r.state = "connected")
    (hp : mapGet st.participants r.localParticipant.identity = some e) :
    (toggleCameraSyncStart st).2 = none ∧
    (toggleCameraSyncStart (toggleCameraSyncStart st).1).2 = none ∧
    (toggleCameraSyncStart (toggleCameraSyncStart st).1).1.lastCameraState =
      !r.localParticipant.isCameraEnabled ∧
    (∀ s b, (toggleCameraResolve s b).1.lastCameraState = s.lastCameraState) := by
  have h1 := toggleCameraSyncStart_eq st r hr hc (by rw [hp]; rfl)
  have e1 : (toggleCameraSyncStart st).2 = none := by rw [h1]
  have e2 : (toggleCameraSyncStart st).1.room = some r := by rw [h1]; exact hr
  have e3 : (mapGet (toggleCameraSyncStart st).1.participants
      r.localParticipant.identity).isSome = true := by
    rw [h1]
    simp only [mapGet_mapModify_self, hp]
    rfl
  have h2 := toggleCameraSyncStart_eq (toggleCameraSyncStart st).1 r e2 hc e3
  refine ⟨e1, by rw [h2], by rw [h2], ?_⟩
  intro s b
  unfold toggleCameraResolve
  cases hs : s.room with
  | none => rfl
  | some rr =>
      by_cases hb : b
      · cases hg : mapGet s.participants rr.localParticipant.identity <;> simp [hb, hg]
      · simp [hb]

/-- Witness for the amended C9 at a concrete connected state. -/
theorem toggle_double_call_negates_once_w :
    (toggleCameraSyncStart stDouble).2 = none ∧
    (toggleCameraSyncStart (toggleCameraSyncStart stDouble).1).2 = none ∧
    (toggleCameraSyncStart (toggleCameraSyncStart stDouble).1).1.lastCameraState =
      !(lpAlice false true).isCameraEnabled ∧
    (∀ s b, (toggleCameraResolve s b).1.lastCameraState = s.lastCameraState) :=
  toggle_double_call_negates_once stDouble
    { state := "connected", localParticipant := lpAlice false true, remoteParticipants := [] }
    entryAlice rfl rfl (by decide)

theorem keys_mapSet (reg : Registry) (k : String) (v : ParticipantData) :
    (mapSet reg k v).map Prod.fst =
      if k ∈ reg.map Prod.fst then reg.map Prod.fst else reg.map Prod.fst ++ [k] := by
  induction reg with
  | nil => simp [mapSet]
  | cons e rest ih =>
      by_cases he : e.1 = k
      · simp [mapSet, he]
      · have hke : ¬ k = e.1 := fun hc => he hc.symm
        by_cases hm : k ∈ rest.map Prod.fst <;>
          simp [mapSet, he, hke, hm, ih]

theorem mem_keys_mapSet (reg : Registry) (k : String) (v : ParticipantData) :
    k ∈ (mapSet reg k v).map Prod.fst := by
  rw [keys_mapSet]
  by_cases hm : k ∈ reg.map Prod.fst <;> simp [hm]

theorem keys_mapDelete (reg : Registry) (k : String) :
    (mapDelete reg k).map Prod.fst = (reg.map Prod.fst).erase k := by
  induction reg with
  | nil => rfl
  | cons e rest ih =>
      by_cases he : e.1 = k
      · simp [mapDelete, he, List.erase_cons]
      · simp [mapDelete, he, List.erase_cons, ih]

theorem occStep_nodup (ids : List String) (ev : RoomOccupancyEvent) (h : ids.Nodup) :
    (occStep ids ev).Nodup := by
  cases ev with
  | joined p il irc =>
      by_cases hm : p.identity ∈ ids
      · simpa [occStep, hm] using h
      · simp [occStep, hm, List.nodup_append, h]
  | left id =>
      exact h.erase id

theorem foldl_occStep_nodup (evs : List RoomOccupancyEvent) :
    ∀ ids : List String, ids.Nodup → (evs.foldl occStep ids).Nodup := by
  induction evs with
  | nil => intro ids h; exact h
  | cons ev evs ih =>
      intro ids h
      exact ih (occStep ids ev) (occStep_nodup ids ev h)

theorem applyOccupancyEvent_keys (reg : Registry) (ev : RoomOccupancyEvent) :
    (applyOccupancyEvent reg ev).map Prod.fst = occStep (reg.map Prod.fst) ev := by
  cases ev with
  | joined p il irc =>
      simp only [applyOccupancyEvent, addParticipant, occStep]
      exact keys_mapSet reg p.identity (mkParticipantData p il irc)
  | left id =>
      simp only [applyOccupancyEvent, removeParticipant, occStep]
      exact keys_mapDelete reg id

theorem foldl_occupancy_keys (evs : List RoomOccupancyEvent) :
    ∀ reg : Registry,
      (evs.foldl applyOccupancyEvent reg).map Prod.fst =
        evs.foldl occStep (reg.map Prod.fst) := by
  induction evs with
  | nil => intro reg; rfl
  | cons ev evs ih =>
      intro reg
      simp only [List.foldl_cons]
      rw [ih (applyOccupancyEvent reg ev), applyOccupancyEvent_keys]

theorem mem_mapSet (k : String) (v : ParticipantData) :
    ∀ reg : Registry, ∀ q ∈ mapSet reg k v, q = (k, v) ∨ q ∈ reg := by
  intro reg
  induction reg with
  | nil => intro q h; simpa [mapSet] using h
  | cons e rest ih =>
      intro q h
      by_cases he : e.1 = k
      · simp only [mapSet, he, if_true] at h
        rcases List.mem_cons.mp h with h | h
        · exact Or.inl h
        · exact Or.inr (List.mem_cons_of_mem e h)
      · simp only [mapSet, he, if_false] at h
        rcases List.mem_cons.mp h with h | h
        · exact Or.inr (h ▸ List.mem_cons_self e rest)
        · rcases ih q h with h | h
          · exact Or.inl h
          · exact Or.inr (List.mem_cons_of_mem e h)

theorem mem_mapDelete (k : String) :
    ∀ reg : Registry, ∀ q ∈ mapDelete reg k, q ∈ reg := by
  intro reg
  induction reg with
  | nil => intro q h; simp [mapDelete] at h
  | cons e rest ih =>
      intro q h
      by_cases he : e.1 = k
      · simp only [mapDelete, he, if_true] at h
        exact List.mem_cons_of_mem e h
      · simp only [mapDelete, he, if_false] at h
        rcases List.mem_cons.mp h with h | h
        · exact h ▸ List.mem_cons_self e rest
        · exact List.mem_cons_of_mem e (ih q h)

theorem foldl_occupancy_localTag (L : String) (evs : List RoomOccupancyEvent) :
    ∀ reg : Registry, (∀ ev ∈ evs, localConsistent L ev = true) →
      (∀ q ∈ reg, q.2.isLocal = decide (q.1 = L)) →
      ∀ q ∈ evs.foldl applyOccupancyEvent reg, q.2.isLocal = decide (q.1 = L) := by
  induction evs with
  | nil => intro reg _ hreg; exact hreg
  | cons ev evs ih =>
      intro reg hl hreg
      simp only [List.foldl_cons]
      refine ih (applyOccupancyEvent reg ev) (fun e he => hl e (List.mem_cons_of_mem ev he)) ?_
      intro q hq
      cases ev with
      | joined p il irc =>
          have hil : il = decide (p.identity = L) := by
            have := hl _ (List.mem_cons_self _ _)
            simpa [localConsistent] using this
          rcases mem_mapSet p.identity (mkParticipantData p il irc) reg q hq with h | h
          · rw [h]
            simpa [mkParticipantData] using hil
          · exact hreg q h
      | left id =>
          exact hreg q (mem_mapDelete id reg q hq)

theorem countP_isLocal_eq_one (L : String) :
    ∀ reg : Registry, (∀ q ∈ reg, q.2.isLocal = decide (q.1 = L)) →
      (reg.map Prod.fst).Nodup → L ∈ reg.map Prod.fst →
      reg.countP (fun q => q.2.isLocal) = 1 := by
  intro reg
  induction reg with
  | nil => intro _ _ hmem; simp at hmem
  | cons q rest ih =>
      intro htag hnd hmem
      have hq := htag q (List.mem_cons_self q rest)
      simp only [List.map_cons, List.nodup_cons] at hnd
      by_cases hq1 : q.1 = L
      · have hloc : q.2.isLocal = true := by rw [hq]; simp [hq1]
        have hrest : rest.countP (fun e => e.2.isLocal) = 0 := by
          rw [List.countP_eq_zero]
          intro e he
          have he1 : ¬ e.1 = L := by
            intro hc
            apply hnd.1
            rw [hq1, ← hc]
            exact List.mem_map_of_mem Prod.fst he
          have hel := htag e (List.mem_cons_of_mem q he)
          simp [hel, he1]
        rw [List.countP_cons]
        simp [hloc, hrest]
      · have hloc : q.2.isLocal = false := by rw [hq]; simp [hq1]
        have hmem2 : L ∈ rest.map Prod.fst := by
          rcases List.mem_cons.mp hmem with h | h
          · exact absurd h.symm hq1
          · exact h
        rw [List.countP_cons]
        simp only [hloc, Bool.false_eq_true, if_false, Nat.add_zero]
        exact ih (fun e he => htag e (List.mem_cons_of_mem q he)) hnd.2 hmem2

/-- Claim C2: over any occupancy-event sequence applied to the empty
registry — with `isLocal` passed as true exactly for the local identity,
as the manager does — the registry keys are exactly the currently joined
identities (one entry each, no duplicates), duplicate joins are idempotent
for membership, and once the local identity is joined and not left,
exactly one entry has `isLocal = true`. -/
theorem registry_occupancy_invariant (L : String) (evs : List RoomOccupancyEvent)
    (p : TransportParticipant) (il irc : Bool)
    (hl : ∀ ev ∈ evs, localConsistent L ev = true) :
    (applyOccupancyEvents evs).map Prod.fst = currentIdentities evs ∧
    (currentIdentities evs).Nodup ∧
    (L ∈ currentIdentities evs →
      (applyOccupancyEvents evs).countP (fun q => q.2.isLocal) = 1) ∧
    (applyOccupancyEvents (evs ++ [RoomOccupancyEvent.joined p il irc,
        RoomOccupancyEvent.joined p il irc])).map Prod.fst =
      (applyOccupancyEvents (evs ++ [RoomOccupancyEvent.joined p il irc])).map Prod.fst := by
  have hkeys : (applyOccupancyEvents evs).map Prod.fst = currentIdentities evs := by
    unfold applyOccupancyEvents currentIdentities
    simpa using foldl_occupancy_keys evs []
  refine ⟨hkeys, ?_, ?_, ?_⟩
  · unfold currentIdentities
    exact foldl_occStep_nodup evs [] List.nodup_nil
  · intro hmem
    refine countP_isLocal_eq_one L (applyOccupancyEvents evs) ?_ ?_ ?_
    · exact foldl_occupancy_localTag L evs [] hl (by intro q hq; simp at hq)
    · rw [hkeys]
      unfold currentIdentities
      exact foldl_occStep_nodup evs [] List.nodup_nil
    · rw [hkeys]; exact hmem
  · unfold applyOccupancyEvents
    rw [List.foldl_append, List.foldl_append]
    simp only [List.foldl_cons, List.foldl_nil]
    rw [applyOccupancyEvent_keys]
    set A := List.foldl applyOccupancyEvent [] evs
    show occStep ((applyOccupancyEvent A (RoomOccupancyEvent.joined p il irc)).map Prod.fst)
        (RoomOccupancyEvent.joined p il irc) = _
    have hmem : p.identity ∈ (applyOccupancyEvent A (RoomOccupancyEvent.joined p il irc)).map Prod.fst :=
      mem_keys_mapSet A p.identity (mkParticipantData p il irc)
    simp [occStep, hmem]

/-- Witness for C2 on the demo event sequence (alice local, bob joining
twice and leaving). -/
theorem registry_occupancy_invariant_w :
    (applyOccupancyEvents evsDemo).map Prod.fst = currentIdentities evsDemo ∧
    (currentIdentities evsDemo).Nodup ∧
    (applyOccupancyEvents evsDemo).countP (fun q => q.2.isLocal) = 1 ∧
    (applyOccupancyEvents (evsDemo ++ [RoomOccupancyEvent.joined lpBob false false,
        RoomOccupancyEvent.joined lpBob false false])).map Prod.fst =
      (applyOccupancyEvents (evsDemo ++ [RoomOccupancyEvent.joined lpBob false false])).map
        Prod.fst := by
  have h := registry_occupancy_invariant "alice" evsDemo lpBob false false (by decide)
  exact ⟨h.1, h.2.1, h.2.2.1 (by decide), h.2.2.2⟩

theorem kmap_kmap (F G : String → ParticipantData → ParticipantData) (reg : Registry) :
    kmap F (kmap G reg) = kmap (fun q e => F q (G q e)) reg := by
  unfold kmap
  rw [List.map_map]
  rfl

theorem kmap_congr (F G : String → ParticipantData → ParticipantData)
    (h : ∀ q e, F q e = G q e) (reg : Registry) : kmap F reg = kmap G reg := by
  induction reg with
  | nil => rfl
  | cons e rest ih =>
      show (e.1, F e.1 e.2) :: kmap F rest = (e.1, G e.1 e.2) :: kmap G rest
      rw [h e.1 e.2, ih]

theorem kmap_id (reg : Registry) : kmap (fun _ e => e) reg = reg := by
  induction reg with
  | nil => rfl
  | cons e rest ih =>
      show (e.1, e.2) :: kmap (fun _ e => e) rest = e :: rest
      rw [ih]

theorem mapModify_eq_kmap (reg : Registry) (k : String)
    (f : ParticipantData → ParticipantData) :
    mapModify reg k f = kmap (fun q e => if q = k then f e else e) reg := by
  induction reg with
  | nil => rfl
  | cons e rest ih =>
      by_cases he : e.1 = k
      · simp [mapModify, kmap, he] at ih ⊢
        exact ih
      · simp [mapModify, kmap, he] at ih ⊢
        exact ih

theorem mapModify_id (reg : Registry) (k : String) :
    mapModify reg k (fun e => e) = reg := by
  induction reg with
  | nil => rfl
  | cons e rest ih =>
      by_cases he : e.1 = k
      · simp [mapModify, he] at ih ⊢
      · simp [mapModify, he] at ih ⊢

theorem remoteIdentities_kmap (F : String → ParticipantData → ParticipantData)
    (h : ∀ q e, (F q e).isLocal = e.isLocal) (reg : Registry) :
    remoteIdentities (kmap F reg) = remoteIdentities reg := by
  induction reg with
  | nil => rfl
  | cons e rest ih =>
      unfold remoteIdentities kmap at ih ⊢
      simp only [List.map_cons, List.filter_cons]
      rw [h e.1 e.2]
      cases hb : !e.2.isLocal
      · simp only [hb, Bool.false_eq_true, if_false]
        exact ih
      · simp only [hb, if_true, List.map_cons]
        rw [ih]

theorem foldModify_eq_kmap (f : String → ParticipantData → ParticipantData)
    (hf : ∀ k e, f k (f k e) = f k e) :
    ∀ (ks : List String) (reg : Registry),
      ks.foldl (fun r k => mapModify r k (f k)) reg =
        kmap (fun q e => if q ∈ ks then f q e else e) reg := by
  intro ks
  induction ks with
  | nil =>
      intro reg
      rw [kmap_congr (fun q e => if q ∈ ([] : List String) then f q e else e)
        (fun _ e => e) (fun q e => by simp) reg, kmap_id]
      rfl
  | cons k ks ih =>
      intro reg
      simp only [List.foldl_cons]
      rw [ih (mapModify reg k (f k)), mapModify_eq_kmap, kmap_kmap]
      apply kmap_congr
      intro q e
      by_cases hqk : q = k
      · subst hqk
        by_cases hq : q ∈ ks <;> simp [hq, hf]
      · by_cases hq : q ∈ ks <;> simp [hqk, hq]

theorem refreshRemoteEntry_isLocal (lkp : TransportParticipant) (e : ParticipantData) :
    (refreshRemoteEntry lkp e).isLocal = e.isLocal := rfl

theorem refreshRemoteEntry_isRoomCreator (lkp : TransportParticipant) (e : ParticipantData) :
    (refreshRemoteEntry lkp e).isRoomCreator = e.isRoomCreator := rfl

theorem refreshRemoteEntry_idem (lkp : TransportParticipant) (e : ParticipantData) :
    refreshRemoteEntry lkp (refreshRemoteEntry lkp e) = refreshRemoteEntry lkp e := rfl

theorem refreshRemoteEntry_ext (lkp : TransportParticipant) (a b : ParticipantData)
    (h1 : a.isLocal = b.isLocal) (h2 : a.isRoomCreator = b.isRoomCreator) :
    refreshRemoteEntry lkp a = refreshRemoteEntry lkp b := by
  simp [refreshRemoteEntry, h1, h2]

theorem refreshLocalEntry_idem (lp : TransportParticipant) (e : ParticipantData) :
    refreshLocalEntry lp (refreshLocalEntry lp e) = refreshLocalEntry lp e := by
  unfold refreshLocalEntry
  cases hv : findPubTrack lp.videoTrackPublications <;>
    cases ha : findPubTrack lp.audioTrackPublications <;>
      by_cases hc : lp.isCameraEnabled <;> simp [hv, ha, hc]

theorem refreshLocalEntry_isLocal (lp : TransportParticipant) (e : ParticipantData) :
    (refreshLocalEntry lp e).isLocal = e.isLocal := by
  unfold refreshLocalEntry
  cases hv : findPubTrack lp.videoTrackPublications <;>
    cases ha : findPubTrack lp.audioTrackPublications <;>
      by_cases hc : lp.isCameraEnabled <;> simp [hv, ha, hc]

theorem refreshLocalEntry_isRoomCreator (lp : TransportParticipant) (e : ParticipantData) :
    (refreshLocalEntry lp e).isRoomCreator = e.isRoomCreator := by
  unfold refreshLocalEntry
  cases hv : findPubTrack lp.videoTrackPublications <;>
    cases ha : findPubTrack lp.audioTrackPublications <;>
      by_cases hc : lp.isCameraEnabled <;> simp [hv, ha, hc]

theorem lkRefreshFun_none (r : RoomState) (k : String)
    (hg : getParticipantByIdentity r k = none) (e : ParticipantData) :
    lkRefreshFun r k e = e := by
  unfold lkRefreshFun
  rw [hg]

theorem lkRefreshFun_some (r : RoomState) (k : String) (lkp : TransportParticipant)
    (hg : getParticipantByIdentity r k = some lkp) (e : ParticipantData) :
    lkRefreshFun r k e = refreshRemoteEntry lkp e := by
  unfold lkRefreshFun
  rw [hg]

theorem localPass_idem (r : RoomState) (q : String) (e : ParticipantData) :
    localPass r q (localPass r q e) = localPass r q e := by
  unfold localPass
  by_cases hL : q = r.localParticipant.identity <;> simp [hL, refreshLocalEntry_idem]

theorem localPass_isLocal (r : RoomState) (q : String) (e : ParticipantData) :
    (localPass r q e).isLocal = e.isLocal := by
  unfold localPass
  by_cases hL : q = r.localParticipant.identity <;> simp [hL, refreshLocalEntry_isLocal]

theorem localPass_isRoomCreator (r : RoomState) (q : String) (e : ParticipantData) :
    (localPass r q e).isRoomCreator = e.isRoomCreator := by
  unfold localPass
  by_cases hL : q = r.localParticipant.identity <;> simp [hL, refreshLocalEntry_isRoomCreator]

theorem lkRefreshFun_isLocal (r : RoomState) (k : String) (e : ParticipantData) :
    (lkRefreshFun r k e).isLocal = e.isLocal := by
  unfold lkRefreshFun
  cases hg : getParticipantByIdentity r k with
  | none => rfl
  | some lkp => rfl

theorem lkRefreshFun_isRoomCreator (r : RoomState) (k : String) (e : ParticipantData) :
    (lkRefreshFun r k e).isRoomCreator = e.isRoomCreator := by
  unfold lkRefreshFun
  cases hg : getParticipantByIdentity r k with
  | none => rfl
  | some lkp => rfl

theorem lkRefreshFun_idem (r : RoomState) (k : String) (e : ParticipantData) :
    lkRefreshFun r k (lkRefreshFun r k e) = lkRefreshFun r k e := by
  unfold lkRefreshFun
  cases hg : getParticipantByIdentity r k with
  | none => rfl
  | some lkp => exact refreshRemoteEntry_idem lkp e

theorem reconcileEntryFun_isLocal (r : RoomState) (ks : List String) (q : String)
    (e : ParticipantData) : (reconcileEntryFun r ks q e).isLocal = e.isLocal := by
  unfold reconcileEntryFun
  by_cases hk : q ∈ ks
  · rw [if_pos hk, lkRefreshFun_isLocal, localPass_isLocal]
  · rw [if_neg hk, localPass_isLocal]

theorem reconcileEntryFun_idem (r : RoomState) (ks : List String) (q : String)
    (e : ParticipantData) :
    reconcileEntryFun r ks q (reconcileEntryFun r ks q e) = reconcileEntryFun r ks q e := by
  unfold reconcileEntryFun
  by_cases hk : q ∈ ks
  · simp only [if_pos hk]
    cases hg : getParticipantByIdentity r q with
    | none =>
        simp only [lkRefreshFun_none r q hg]
        exact localPass_idem r q e
    | some lkp =>
        simp only [lkRefreshFun_some r q lkp hg]
        apply refreshRemoteEntry_ext
        · rw [localPass_isLocal, refreshRemoteEntry_isLocal, localPass_isLocal]
        · rw [localPass_isRoomCreator, refreshRemoteEntry_isRoomCreator,
            localPass_isRoomCreator]
  · simp only [if_neg hk]
    exact localPass_idem r q e

theorem refreshVTI_eq (st : ManagerState) (r : RoomState) (hr : st.room = some r) :
    refreshVideoTracksInternal st =
      { st with participants := mapModify st.participants r.localParticipant.identity (refreshLocalEntry r.localParticipant) } := by
  unfold refreshVideoTracksInternal
  rw [hr]

theorem updateFromLK_eq (st : ManagerState) (r : RoomState) (k : String)
    (hr : st.room = some r) :
    updateParticipantFromLiveKit st k =
      { st with participants := mapModify st.participants k (lkRefreshFun r k) } := by
  cases hg : getParticipantByIdentity r k with
  | none =>
      have hfun : lkRefreshFun r k = fun e => e := funext (lkRefreshFun_none r k hg)
      simp only [updateParticipantFromLiveKit, hr, hg, hfun, mapModify_id]
      rw [← hr]
  | some lkp =>
      cases hm : mapGet st.participants k with
      | none =>
          have hreg : mapModify st.participants k (lkRefreshFun r k) = st.participants :=
            mapModify_of_get_none _ _ _ hm
          simp only [updateParticipantFromLiveKit, hr, hg, hm, hreg]
          rw [← hr]
      | some e =>
          have hfun : lkRefreshFun r k = refreshRemoteEntry lkp :=
            funext (lkRefreshFun_some r k lkp hg)
          simp only [updateParticipantFromLiveKit, hr, hg, hm, hfun]

theorem foldl_updateFromLK (r : RoomState) :
    ∀ (ks : List String) (st : ManagerState), st.room = some r →
      ks.foldl updateParticipantFromLiveKit st =
        { st with participants := ks.foldl (fun reg k => mapModify reg k (lkRefreshFun r k)) st.participants } := by
  intro ks
  induction ks with
  | nil => intro st _; rfl
  | cons k ks ih =>
      intro st hr
      simp only [List.foldl_cons]
      rw [updateFromLK_eq st r k hr]
      rw [ih { st with participants := mapModify st.participants k (lkRefreshFun r k) } hr]

theorem refreshAll_eq (st : ManagerState) (r : RoomState) (hr : st.room = some r) :
    refreshAllParticipantTracks st =
      { st with participants := kmap (reconcileEntryFun r (remoteIdentities st.participants)) st.participants } := by
  have hks : remoteIdentities (mapModify st.participants r.localParticipant.identity
      (refreshLocalEntry r.localParticipant)) = remoteIdentities st.participants := by
    rw [mapModify_eq_kmap]
    exact remoteIdentities_kmap _
      (fun q e => by
        by_cases hq : q = r.localParticipant.identity <;>
          simp [hq, refreshLocalEntry_isLocal]) _
  have hfold := foldl_updateFromLK r
    (remoteIdentities (mapModify st.participants r.localParticipant.identity (refreshLocalEntry r.localParticipant)))
    { st with participants := mapModify st.participants r.localParticipant.identity (refreshLocalEntry r.localParticipant) }
    hr
  dsimp only at hfold
  unfold refreshAllParticipantTracks
  rw [hr]
  simp only [refreshVTI_eq st r hr]
  rw [hfold]
  rw [hks]
  rw [foldModify_eq_kmap (lkRefreshFun r) (lkRefreshFun_idem r), mapModify_eq_kmap, kmap_kmap]
  rw [hr]
  rfl

/-- Claim C8: `refreshAllParticipantTracks` (with
`refreshVideoTracksInternal` for the local entry) is idempotent for any
fixed transport state — running it twice with no intervening transport
events yields the same snapshot — and it touches nothing but the
participants registry: room handle, desired flags and restoration
counters are all left unchanged. -/
theorem reconcileAll_idempotent (st : ManagerState) :
    refreshAllParticipantTracks (refreshAllParticipantTracks st) =
      refreshAllParticipantTracks st ∧
    (refreshAllParticipantTracks st).room = st.room ∧
    (refreshAllParticipantTracks st).lastCameraState = st.lastCameraState ∧
    (refreshAllParticipantTracks st).lastMicrophoneState = st.lastMicrophoneState ∧
    (refreshAllParticipantTracks st).restorationAttempts = st.restorationAttempts ∧
    (refreshAllParticipantTracks st).maxRestorationAttempts = st.maxRestorationAttempts := by
  cases hr : st.room with
  | none =>
      have h0 : refreshAllParticipantTracks st = st := by
        unfold refreshAllParticipantTracks
        rw [hr]
      rw [h0]
      exact ⟨h0, hr, rfl, rfl, rfl, rfl⟩
  | some r =>
      have hA := refreshAll_eq st r hr
      have hr2 : (refreshAllParticipantTracks st).room = some r := by rw [hA]; exact hr
      have hA2 := refreshAll_eq (refreshAllParticipantTracks st) r hr2
      refine ⟨?_, by rw [hA]; exact hr, by rw [hA], by rw [hA], by rw [hA], by rw [hA]⟩
      rw [hA2]
      rw [hA]
      dsimp only
      rw [remoteIdentities_kmap _ (fun q e => reconcileEntryFun_isLocal r _ q e) _]
      rw [kmap_kmap]
      rw [kmap_congr _ _
        (fun q e => reconcileEntryFun_idem r (remoteIdentities st.participants) q e) _]

end LiveKitDemo
